import Mathlib

/-!
Verification development for the usegs global-state library.

This file gives a shallow embedding of the library's source:
the merge policy makeNewValue (src/utils.js), the global-state registry GS
with initGS / registerGS / getGS / setGS (the stateManager module), and the
useGS hook lifecycle (render body, mount effect, cleanup) executed under
React's documented effect scheduling.  Stateful JavaScript is embedded in
state-passing style: operations take the registry (or a world holding the
registry together with a fresh-object-identity counter) and return the
updated one.  setGS additionally returns the list of listener handles it
notifies, in the order the source's forEach visits them; the source mutates
the entry's value strictly before that forEach runs and returns only after
it finishes.
-/

/-- JavaScript runtime values, as far as the library inspects them: null,
undefined, booleans, numbers (modelled as integers, since the library only
ever branches on a number's truthiness), strings, arrays, and plain objects
represented as insertion-ordered association lists of fields. -/
inductive JSValue : Type where
  | vNull : JSValue
  | vUndefined : JSValue
  | vBool : Bool → JSValue
  | vNum : Int → JSValue
  | vStr : String → JSValue
  | vArr : List JSValue → JSValue
  | vObj : List (String × JSValue) → JSValue

open JSValue

/-- JavaScript truthiness: null, undefined, false, zero and the empty
string are falsy; every other value, including every array and object, is
truthy. -/
def truthy : JSValue → Bool
  | vNull => false
  | vUndefined => false
  | vBool b => b
  | vNum n => n != 0
  | vStr s => s != ""
  | vArr _ => true
  | vObj _ => true

/-- The JavaScript test of typeof v being the string "object": it holds
exactly for null, arrays and plain objects. -/
def jsTypeofObject : JSValue → Bool
  | vNull => true
  | vArr _ => true
  | vObj _ => true
  | _ => false

/-- The JavaScript test Array.isArray v. -/
def jsIsArray : JSValue → Bool
  | vArr _ => true
  | _ => false

/-- The JavaScript strict-equality test of v against undefined. -/
def isUndefinedJS : JSValue → Bool
  | vUndefined => true
  | _ => false

/-- Own enumerable properties of a value, as contributed by the object
spread operator: an object contributes its fields, a string its indexed
characters, an array its indexed elements, and every other value nothing. -/
def spreadProps : JSValue → List (String × JSValue)
  | vObj fs => fs
  | vStr s => s.toList.enum.map (fun ic => (toString ic.1, vStr (String.singleton ic.2)))
  | vArr xs => xs.enum.map (fun ix => (toString ix.1, ix.2))
  | _ => []

/-- Property update on an association list of fields: if the key is already
present its first binding is overwritten in place (keeping its position, as
JavaScript property assignment does), otherwise the binding is appended at
the end. -/
def setField : List (String × JSValue) → String → JSValue → List (String × JSValue)
  | [], k, v => [(k, v)]
  | (k0, v0) :: rest, k, v =>
      if k0 = k then (k, v) :: rest else (k0, v0) :: setField rest k v

/-- Property lookup on an association list of fields (first binding wins,
as in a JavaScript object, whose keys are unique). -/
def lookupField : List (String × JSValue) → String → Option JSValue
  | [], _ => none
  | (k0, v0) :: rest, k => if k0 = k then some v0 else lookupField rest k

/-- Object-spread combination of two field lists: the fields of the first,
assigned one by one with every field of the second, as the spread of two
values into an object literal does. -/
def mergeFields (f1 f2 : List (String × JSValue)) : List (String × JSValue) :=
  f2.foldl (fun acc kv => setField acc kv.1 kv.2) f1

/-- The merge policy makeNewValue from src/utils.js: when either value is
falsy the new value is returned unchanged; else, when the old value is a
non-array object, the object spread of the old value followed by the new
value is returned; else the new value is returned unchanged. -/
def makeNewValue (val newVal : JSValue) : JSValue :=
  if !truthy val || !truthy newVal then newVal
  else if jsTypeofObject val && !jsIsArray val then
    vObj (mergeFields (spreadProps val) (spreadProps newVal))
  else newVal

/-- One element of an entry's listener set.  In the source a listener is
the two-element array holding the hook's dummy state value and its React
state setter; a JavaScript Set compares such arrays by object identity, so
the model records the allocation identity of the array (id) next to the
array's first element (val) and the identity of the setter function, which
identifies the subscribing component instance (inst). -/
structure Listener where
  id : Nat
  val : Nat
  inst : Nat
deriving DecidableEq, Repr

/-- One entry of the global-state object GS: the current value and the Set
of listeners, with the Set modelled as the list of its elements in
insertion order. -/
structure GSEntry where
  value : JSValue
  listeners : List Listener

/-- The global-state object GS, an insertion-ordered mapping from keys to
entries. -/
abbrev GSState := List (String × GSEntry)

/-- Property lookup on GS; resolves the source's bracket access GS at a
key, with a missing key reading as undefined (None). -/
def lookupGS : GSState → String → Option GSEntry
  | [], _ => none
  | (k0, e0) :: rest, k => if k0 = k then some e0 else lookupGS rest k

/-- Property assignment on GS: overwrite the entry in place when the key
exists, otherwise append it. -/
def setEntry : GSState → String → GSEntry → GSState
  | [], k, e => [(k, e)]
  | (k0, e0) :: rest, k, e =>
      if k0 = k then (k, e) :: rest else (k0, e0) :: setEntry rest k e

/-- registerGS from the source: store, under the key, an entry holding the
given value and a freshly created empty listener Set, overwriting any
existing entry. -/
def registerGS (gs : GSState) (key : String) (value : JSValue) : GSState :=
  setEntry gs key ⟨value, []⟩

/-- initGS from the source: registerGS every pair of the initial-state
object, in order.  The source iterates over the entries of its argument
and leaves every other key of GS untouched. -/
def initGS (gs : GSState) (initialState : List (String × JSValue)) : GSState :=
  initialState.foldl (fun g kv => registerGS g kv.1 kv.2) gs

/-- getGS from the source: null when the key has no entry, otherwise the
entry's current value. -/
def getGS (gs : GSState) (key : String) : JSValue :=
  match lookupGS gs key with
  | none => vNull
  | some e => e.value

/-- getGS in explicit state-passing form: the source's getGS performs no
assignment to GS, so the returned registry is the input registry. -/
def getGSOp (gs : GSState) (key : String) : JSValue × GSState :=
  (getGS gs key, gs)

/-- setGS from the source: when the key has no entry, registerGS it with
the new value and return at once (no notification); otherwise overwrite
the entry's value with makeNewValue of the current and new values, and
then walk the entry's listener Set.  The returned list is the listeners
the source's forEach visits, in order; the value assignment happens
strictly before that walk. -/
def setGS (gs : GSState) (key : String) (newValue : JSValue) : GSState × List Listener :=
  match lookupGS gs key with
  | none => (registerGS gs key newValue, [])
  | some e =>
      (setEntry gs key ⟨makeNewValue e.value newValue, e.listeners⟩, e.listeners)

lemma lookupGS_setEntry_self (gs : GSState) (k : String) (e : GSEntry) :
    lookupGS (setEntry gs k e) k = some e := by
  induction gs with
  | nil => simp [setEntry, lookupGS]
  | cons kv rest ih =>
      obtain ⟨k0, e0⟩ := kv
      by_cases h : k0 = k
      · simp [setEntry, h, lookupGS]
      · simp [setEntry, h, lookupGS, ih]

lemma lookupGS_setEntry_ne (gs : GSState) (k k' : String) (e : GSEntry) (h : k' ≠ k) :
    lookupGS (setEntry gs k e) k' = lookupGS gs k' := by
  have h2 : ¬ k = k' := fun hh => h hh.symm
  induction gs with
  | nil => simp [setEntry, lookupGS, h2]
  | cons kv rest ih =>
      obtain ⟨k0, e0⟩ := kv
      by_cases h0 : k0 = k
      · subst h0
        simp [setEntry, lookupGS, h2]
      · simp [setEntry, h0, lookupGS, ih]

/-- C6: after initializing the registry with the single pair (K, V),
reading K yields V, and K's entry holds exactly V together with an empty
listener set — in particular an overwritten entry's previous listener set
is discarded. -/
theorem claim6_init_read (gs : GSState) (k : String) (v : JSValue) :
    lookupGS (initGS gs [(k, v)]) k = some ⟨v, []⟩ ∧
    getGS (initGS gs [(k, v)]) k = v := by
  have h : initGS gs [(k, v)] = setEntry gs k ⟨v, []⟩ := rfl
  rw [h]
  refine ⟨lookupGS_setEntry_self gs k _, ?_⟩
  simp [getGS, lookupGS_setEntry_self]

/-- C7: reading a key that has no entry returns the null-marker and leaves
the registry unchanged — no entry is created by the read and no error is
raised (the operation is total). -/
theorem claim7_read_missing (gs : GSState) (k : String)
    (h : lookupGS gs k = none) :
    getGSOp gs k = (vNull, gs) := by
  simp [getGSOp, getGS, h]

theorem claim7_witness :
    lookupGS ([] : GSState) "missing" = none ∧
    getGSOp ([] : GSState) "missing" = (vNull, []) :=
  ⟨rfl, claim7_read_missing [] "missing" rfl⟩

/-- C8: writing a key that has no entry is total and creates the entry
with the new value stored as-is (no merge policy applied), an empty
listener set, and no listener notified. -/
theorem claim8_write_missing (gs : GSState) (k : String) (v : JSValue)
    (h : lookupGS gs k = none) :
    setGS gs k v = (setEntry gs k ⟨v, []⟩, []) ∧
    lookupGS (setGS gs k v).1 k = some ⟨v, []⟩ ∧
    getGS (setGS gs k v).1 k = v := by
  have h1 : setGS gs k v = (setEntry gs k ⟨v, []⟩, []) := by
    simp [setGS, h, registerGS]
  refine ⟨h1, ?_, ?_⟩
  · rw [h1]; exact lookupGS_setEntry_self gs k _
  · rw [h1]; simp [getGS, lookupGS_setEntry_self]

theorem claim8_witness :
    lookupGS ([] : GSState) "K" = none ∧
    setGS ([] : GSState) "K" (vNum 5) = ([("K", ⟨vNum 5, []⟩)], []) ∧
    getGS (setGS ([] : GSState) "K" (vNum 5)).1 "K" = vNum 5 :=
  ⟨rfl, (claim8_write_missing [] "K" (vNum 5) rfl).1, (claim8_write_missing [] "K" (vNum 5) rfl).2.2⟩

/-- C10: writing a key whose entry exists notifies exactly the listeners
currently in the entry's listener set, unconditionally — the source has no
change detection, so the same notification happens even when the merged
value equals the previously stored value. -/
theorem claim10_notify_unconditional (gs : GSState) (k : String) (v : JSValue)
    (e : GSEntry) (h : lookupGS gs k = some e) :
    (setGS gs k v).2 = e.listeners := by
  simp [setGS, h]

theorem claim10_witness :
    lookupGS [("K", (⟨vObj [("a", vNum 1)], [⟨0, 0, 7⟩]⟩ : GSEntry))] "K"
      = some ⟨vObj [("a", vNum 1)], [⟨0, 0, 7⟩]⟩ ∧
    makeNewValue (vObj [("a", vNum 1)]) (vObj []) = vObj [("a", vNum 1)] ∧
    (setGS [("K", (⟨vObj [("a", vNum 1)], [⟨0, 0, 7⟩]⟩ : GSEntry))] "K" (vObj [])).2
      = [⟨0, 0, 7⟩] :=
  ⟨rfl, rfl,
    claim10_notify_unconditional [("K", ⟨vObj [("a", vNum 1)], [⟨0, 0, 7⟩]⟩)] "K" (vObj []) _ rfl⟩

/-- C5: on a write to an existing entry, the stored value is already the
merged value in the registry state against which the listeners are
notified (the source assigns the value strictly before the forEach over
the listener set), every listener currently in the set is in the returned
notification list, and a re-read of the key after the write observes the
merged value. -/
theorem claim5_store_before_notify (gs : GSState) (k : String) (v : JSValue)
    (e : GSEntry) (h : lookupGS gs k = some e) :
    lookupGS (setGS gs k v).1 k = some ⟨makeNewValue e.value v, e.listeners⟩ ∧
    (setGS gs k v).2 = e.listeners ∧
    getGS (setGS gs k v).1 k = makeNewValue e.value v := by
  have h1 : (setGS gs k v).1 = setEntry gs k ⟨makeNewValue e.value v, e.listeners⟩ := by
    simp [setGS, h]
  refine ⟨?_, ?_, ?_⟩
  · rw [h1]; exact lookupGS_setEntry_self gs k _
  · simp [setGS, h]
  · rw [h1]; simp [getGS, lookupGS_setEntry_self]

theorem claim5_witness :
    lookupGS [("K", (⟨vNum 1, [⟨0, 0, 7⟩]⟩ : GSEntry))] "K" = some ⟨vNum 1, [⟨0, 0, 7⟩]⟩ ∧
    lookupGS (setGS [("K", (⟨vNum 1, [⟨0, 0, 7⟩]⟩ : GSEntry))] "K" (vNum 2)).1 "K"
      = some ⟨vNum 2, [⟨0, 0, 7⟩]⟩ ∧
    (setGS [("K", (⟨vNum 1, [⟨0, 0, 7⟩]⟩ : GSEntry))] "K" (vNum 2)).2 = [⟨0, 0, 7⟩] ∧
    getGS (setGS [("K", (⟨vNum 1, [⟨0, 0, 7⟩]⟩ : GSEntry))] "K" (vNum 2)).1 "K" = vNum 2 :=
  ⟨rfl,
    (claim5_store_before_notify [("K", ⟨vNum 1, [⟨0, 0, 7⟩]⟩)] "K" (vNum 2) _ rfl).1,
    (claim5_store_before_notify [("K", ⟨vNum 1, [⟨0, 0, 7⟩]⟩)] "K" (vNum 2) _ rfl).2.1,
    (claim5_store_before_notify [("K", ⟨vNum 1, [⟨0, 0, 7⟩]⟩)] "K" (vNum 2) _ rfl).2.2⟩

/-- The claim vocabulary for a scalar value: neither a keyed record nor an
ordered sequence (and not one of the nullish markers). -/
def isScalarJS : JSValue → Bool
  | vBool _ => true
  | vNum _ => true
  | vStr _ => true
  | _ => false

/-- C1, counterexample: with K fresh, V1 the truthy record with field a
mapped to 1, and V2 the truthy scalar 5, writing V1 then V2 leaves the
record stored — the merge branch of makeNewValue fires because the OLD
value is a non-array object, and spreading the scalar 5 contributes no
fields, so the read returns V1, not V2, refuting the claim as stated. -/
theorem claim1_counterexample :
    isScalarJS (vNum 5) = true ∧ truthy (vNum 5) = true ∧
    getGS (setGS (setGS ([] : GSState) "k" (vObj [("a", vNum 1)])).1 "k" (vNum 5)).1 "k"
      = vObj [("a", vNum 1)] ∧
    vObj [("a", vNum 1)] ≠ vNum 5 :=
  ⟨rfl, rfl, rfl, fun h => JSValue.noConfusion h⟩

/-- C1, amended: for every key K with no existing entry and values V1, V2,
if V1 or V2 is falsy, or V1 is not a keyed record (the merge branch keys on
the OLD value being a non-array object, not on V2 being a scalar), then
after Write(K, V1) followed by Write(K, V2), Read(K) returns V2 unchanged,
with no merge attempted. -/
theorem claim1_amended_overwrite (gs : GSState) (k : String) (v1 v2 : JSValue)
    (hnone : lookupGS gs k = none)
    (h : truthy v1 = false ∨ truthy v2 = false ∨
      (jsTypeofObject v1 && !jsIsArray v1) = false) :
    getGS (setGS (setGS gs k v1).1 k v2).1 k = v2 := by
  have h1 : (setGS gs k v1).1 = setEntry gs k ⟨v1, []⟩ := by
    simp [setGS, hnone, registerGS]
  have h2 : lookupGS (setEntry gs k ⟨v1, []⟩) k = some ⟨v1, []⟩ :=
    lookupGS_setEntry_self gs k _
  have hm : makeNewValue v1 v2 = v2 := by
    unfold makeNewValue
    rcases h with h | h | h
    · simp [h]
    · simp [h]
    · by_cases t1 : truthy v1 <;> by_cases t2 : truthy v2 <;> simp [t1, t2, h]
  rw [h1]
  simp [setGS, h2, hm, getGS, lookupGS_setEntry_self]

theorem claim1_witness :
    lookupGS ([] : GSState) "k" = none ∧
    (jsTypeofObject (vNum 3) && !jsIsArray (vNum 3)) = false ∧
    getGS (setGS (setGS ([] : GSState) "k" (vNum 3)).1 "k" (vNum 5)).1 "k" = vNum 5 :=
  ⟨rfl, rfl, claim1_amended_overwrite [] "k" (vNum 3) (vNum 5) rfl (Or.inr (Or.inr rfl))⟩

/-- Key uniqueness of a field list; a JavaScript object always satisfies
it, since creating an object literal collapses duplicate keys. -/
def nodupKeys : List (String × JSValue) → Bool
  | [] => true
  | (k, _) :: rest => !(rest.any (fun kv => kv.1 == k)) && nodupKeys rest

/-- Disjointness of the key sets of two field lists. -/
def disjointKeys (f1 f2 : List (String × JSValue)) : Bool :=
  f2.all (fun kv => !(f1.any (fun kv1 => kv1.1 == kv.1)))

lemma lookupField_setField (a : List (String × JSValue)) (k k' : String) (v : JSValue) :
    lookupField (setField a k v) k' = if k = k' then some v else lookupField a k' := by
  induction a with
  | nil => simp [setField, lookupField]
  | cons kv rest ih =>
      obtain ⟨k0, v0⟩ := kv
      by_cases h0 : k0 = k
      · subst h0
        by_cases h1 : k0 = k'
        · simp [setField, lookupField, h1]
        · simp [setField, lookupField, h1]
      · by_cases h1 : k0 = k'
        · have h2 : ¬ k = k' := fun hh => h0 (h1.trans hh.symm)
          have h3 : ¬ k' = k := fun hh => h2 hh.symm
          simp [setField, h0, lookupField, h1, h2, h3]
        · simp [setField, h0, lookupField, h1, ih]

lemma lookupField_eq_none (l : List (String × JSValue)) (k : String)
    (h : l.any (fun kv => kv.1 == k) = false) :
    lookupField l k = none := by
  induction l with
  | nil => rfl
  | cons kv rest ih =>
      obtain ⟨k0, v0⟩ := kv
      simp only [List.any_cons, Bool.or_eq_false_iff] at h
      have h1 : ¬ k0 = k := by
        intro hh
        subst hh
        simp at h
      simp [lookupField, h1, ih h.2]

lemma lookupField_mergeFields (f2 f1 : List (String × JSValue)) (k' : String)
    (hnd : nodupKeys f2 = true) :
    lookupField (mergeFields f1 f2) k' =
      match lookupField f2 k' with
      | some w => some w
      | none => lookupField f1 k' := by
  induction f2 generalizing f1 with
  | nil => simp [mergeFields, lookupField]
  | cons kv rest ih =>
      obtain ⟨k0, v0⟩ := kv
      simp only [nodupKeys, Bool.and_eq_true, Bool.not_eq_true'] at hnd
      have hstep : mergeFields f1 ((k0, v0) :: rest) = mergeFields (setField f1 k0 v0) rest := rfl
      rw [hstep, ih (setField f1 k0 v0) hnd.2]
      by_cases h1 : k0 = k'
      · subst h1
        have hr : lookupField rest k0 = none := lookupField_eq_none rest k0 hnd.1
        simp [lookupField, hr, lookupField_setField]
      · cases hcase : lookupField rest k' with
        | some w => simp [lookupField, h1, hcase]
        | none => simp [lookupField, h1, hcase, lookupField_setField]

lemma setField_append (a : List (String × JSValue)) (k : String) (v : JSValue)
    (h : a.any (fun kv => kv.1 == k) = false) :
    setField a k v = a ++ [(k, v)] := by
  induction a with
  | nil => rfl
  | cons kv rest ih =>
      obtain ⟨k0, v0⟩ := kv
      simp only [List.any_cons, Bool.or_eq_false_iff] at h
      have h1 : ¬ k0 = k := by
        intro hh
        subst hh
        simp at h
      simp [setField, h1, ih h.2]

lemma mergeFields_append (f2 f1 : List (String × JSValue))
    (hd : disjointKeys f1 f2 = true) (hnd : nodupKeys f2 = true) :
    mergeFields f1 f2 = f1 ++ f2 := by
  induction f2 generalizing f1 with
  | nil => simp [mergeFields]
  | cons kv rest ih =>
      obtain ⟨k0, v0⟩ := kv
      simp only [disjointKeys, List.all_cons, Bool.and_eq_true, Bool.not_eq_true'] at hd
      simp only [nodupKeys, Bool.and_eq_true, Bool.not_eq_true'] at hnd
      have hstep : mergeFields f1 ((k0, v0) :: rest) = mergeFields (setField f1 k0 v0) rest := rfl
      rw [hstep, setField_append f1 k0 v0 hd.1]
      have hrest : ∀ kv ∈ rest, ¬ kv.1 = k0 := by
        intro kv hkv hh
        have hany : rest.any (fun kv => kv.1 == k0) = true :=
          List.any_eq_true.mpr ⟨kv, hkv, by simp [hh]⟩
        rw [hany] at hnd
        exact Bool.noConfusion hnd.1
      have hd2 : ∀ kv ∈ rest, f1.any (fun kv1 => kv1.1 == kv.1) = false := by
        have := List.all_eq_true.mp hd.2
        intro kv hkv
        have hx := this kv hkv
        simpa using hx
      have hd' : disjointKeys (f1 ++ [(k0, v0)]) rest = true := by
        apply List.all_eq_true.mpr
        intro kv hkv
        have h1 := hd2 kv hkv
        have h2 : ¬ k0 = kv.1 := fun hh => hrest kv hkv hh.symm
        simp [List.any_append, h1, h2]
      rw [ih (f1 ++ [(k0, v0)]) hd' hnd.2]
      simp

/-- C4: for a truthy record old value and any truthy new value, the merge
policy produces a record holding all fields of the old value assigned with
every own property of the new value; the combination is one level deep
only, so for any key the resulting binding is the new value's binding
wholesale whenever the new value has that key, and the old value's binding
otherwise (no recursive merge of nested records); and for records V1, V2
with disjoint (duplicate-free) key sets, writing V1 then V2 to a fresh key
makes a read return the union record of V1 and V2. -/
theorem claim4_shallow_merge (f1 f2 : List (String × JSValue)) (nv : JSValue)
    (k : String) (gs : GSState)
    (htr : truthy nv = true)
    (hnv : nodupKeys (spreadProps nv) = true)
    (hnone : lookupGS gs k = none)
    (hd : disjointKeys f1 f2 = true)
    (hnd : nodupKeys f2 = true) :
    makeNewValue (vObj f1) nv = vObj (mergeFields f1 (spreadProps nv)) ∧
    (∀ k', lookupField (mergeFields f1 (spreadProps nv)) k' =
      match lookupField (spreadProps nv) k' with
      | some w => some w
      | none => lookupField f1 k') ∧
    getGS (setGS (setGS gs k (vObj f1)).1 k (vObj f2)).1 k = vObj (f1 ++ f2) := by
  refine ⟨?_, ?_, ?_⟩
  · unfold makeNewValue
    rw [show truthy (vObj f1) = true from rfl, htr]
    simp [jsTypeofObject, jsIsArray, spreadProps]
  · intro k'
    exact lookupField_mergeFields (spreadProps nv) f1 k' hnv
  · have h1 : (setGS gs k (vObj f1)).1 = setEntry gs k ⟨vObj f1, []⟩ := by
      simp [setGS, hnone, registerGS]
    rw [h1]
    have h2 := lookupGS_setEntry_self gs k (⟨vObj f1, []⟩ : GSEntry)
    have hm : makeNewValue (vObj f1) (vObj f2) = vObj (f1 ++ f2) := by
      simp [makeNewValue, truthy, jsTypeofObject, jsIsArray, spreadProps,
        mergeFields_append f2 f1 hd hnd]
    simp [setGS, h2, hm, getGS, lookupGS_setEntry_self]

theorem claim4_witness :
    disjointKeys [("a", vNum 1)] [("b", vNum 2)] = true ∧
    makeNewValue (vObj [("a", vNum 1)]) (vObj [("b", vNum 2)])
      = vObj (mergeFields [("a", vNum 1)] [("b", vNum 2)]) ∧
    getGS (setGS (setGS ([] : GSState) "K" (vObj [("a", vNum 1)])).1 "K"
        (vObj [("b", vNum 2)])).1 "K"
      = vObj [("a", vNum 1), ("b", vNum 2)] :=
  ⟨rfl,
    (claim4_shallow_merge [("a", vNum 1)] [("b", vNum 2)] (vObj [("b", vNum 2)])
      "K" [] rfl rfl rfl rfl rfl).1,
    (claim4_shallow_merge [("a", vNum 1)] [("b", vNum 2)] (vObj [("b", vNum 2)])
      "K" [] rfl rfl rfl rfl rfl).2.2⟩

/-- Membership test of a JavaScript Set of listener arrays: two arrays are
the same element exactly when they are the same allocation (SameValueZero
on objects is reference identity). -/
def setHas (s : List Listener) (lid : Nat) : Bool :=
  s.any (fun x => x.id == lid)

/-- Set.add on a listener Set: append the element unless an element with
the same identity is already present. -/
def setAdd (s : List Listener) (l : Listener) : List Listener :=
  if setHas s l.id then s else s ++ [l]

/-- Set.delete on a listener Set: remove the element whose identity is the
given one, when present. -/
def setDelete (s : List Listener) (lid : Nat) : List Listener :=
  s.filter (fun x => !(x.id == lid))

/-- Application of a function to the listener Set of the entry stored
under the key, resolving the source's access to the listeners field of GS
at the key.  The render body of useGS has ensured the entry exists before
either the effect or the cleanup runs. -/
def updateListeners : GSState → String → (List Listener → List Listener) → GSState
  | [], _, _ => []
  | (k0, e0) :: rest, k, f =>
      if k0 = k then (k0, ⟨e0.value, f e0.listeners⟩) :: updateListeners rest k f
      else (k0, e0) :: updateListeners rest k f

/-- One live useGS hook instance: its current key prop and initial-value
argument, the dummy useState value, the isFirstRender ref, and the cleanup
stored by React from the last effect run — the source's first effect run
returns a closure capturing that render's key, val and setVal, and every
later run returns undefined (none). -/
structure HookInst where
  key : String
  initialValue : JSValue
  val : Nat
  isFirstRender : Bool
  cleanup : Option (String × Nat × Nat)

/-- The world a hook executes in: the global-state object and a counter
supplying the identity of the next JavaScript object allocation, used for
the listener arrays the source builds. -/
structure World where
  gs : GSState
  nextId : Nat

/-- The first statement of the useGS body: register the key with the
initial value when GS has no entry for it. -/
def ensureEntry (gs : GSState) (key : String) (initV : JSValue) : GSState :=
  match lookupGS gs key with
  | none => registerGS gs key initV
  | some _ => gs

/-- The second statement of the useGS body: overwrite the entry's value
with the initial value when the stored value is undefined, leaving the
listener Set in place. -/
def fillUndefined (gs : GSState) (key : String) (initV : JSValue) : GSState :=
  match lookupGS gs key with
  | none => gs
  | some e =>
      if isUndefinedJS e.value then setEntry gs key ⟨initV, e.listeners⟩ else gs

/-- The render-phase body of useGS: register the key with the initial
value when GS has no entry for it, then overwrite the entry's value with
the initial value when the stored value is undefined.  The body performs
no listener-set change; the subscription is deferred to the effect. -/
def useGSRenderBody (w : World) (i : HookInst) : World :=
  ⟨fillUndefined (ensureEntry w.gs i.key i.initialValue) i.key i.initialValue, w.nextId⟩

/-- The effect body of useGS, run by React after a commit whose deps (key,
val) changed.  On the instance's first run it clears the isFirstRender
ref, allocates a fresh two-element array holding val and setVal, adds it
to the key's listener Set, and returns the cleanup closure; on every later
run it does nothing and returns undefined, so React stores no cleanup. -/
def useGSEffect (w : World) (i : HookInst) (iid : Nat) : World × HookInst :=
  if i.isFirstRender then
    (⟨updateListeners w.gs i.key (fun s => setAdd s ⟨w.nextId, i.val, iid⟩), w.nextId + 1⟩,
     ⟨i.key, i.initialValue, i.val, false, some (i.key, i.val, iid)⟩)
  else
    (w, ⟨i.key, i.initialValue, i.val, false, none⟩)

/-- The stored cleanup closure of useGS, run by React before re-running
the effect and on unmount.  The source's closure builds a NEW two-element
array from the captured val and setVal and passes it to Set.delete; the
new array is a fresh allocation, so its identity is the current counter
value, distinct from every array already in any listener Set. -/
def useGSCleanup (w : World) (i : HookInst) : World × HookInst :=
  match i.cleanup with
  | none => (w, i)
  | some (k, _, _) =>
      (⟨updateListeners w.gs k (fun s => setDelete s w.nextId), w.nextId + 1⟩,
       ⟨i.key, i.initialValue, i.val, i.isFirstRender, none⟩)

/-- The hook state of a freshly created component instance, before its
first render: useState starts the dummy val at 0 and useRef starts
isFirstRender at true. -/
def initialInst (key : String) (initV : JSValue) : HookInst :=
  ⟨key, initV, 0, true, none⟩

/-- Mounting a component instance that calls useGS: the render body runs,
the commit happens, and the effect runs for the first time. -/
def mount (w : World) (key : String) (initV : JSValue) (iid : Nat) : World × HookInst :=
  useGSEffect (useGSRenderBody w (initialInst key initV)) (initialInst key initV) iid

/-- One re-render of a live instance whose effect deps (key, val) changed:
the render body runs, then React runs the stored cleanup of the previous
effect (when one exists), then the effect body. -/
def rerender (w : World) (i : HookInst) (iid : Nat) : World × HookInst :=
  let w1 := useGSRenderBody w i
  let p := useGSCleanup w1 i
  useGSEffect p.1 p.2 iid

/-- Unmounting a live instance: React runs the stored cleanup, when one
exists. -/
def unmount (w : World) (i : HookInst) : World :=
  (useGSCleanup w i).1

/-- The listener Set of the entry stored under the key (empty when the key
has no entry). -/
def listenersAt (gs : GSState) (key : String) : List Listener :=
  match lookupGS gs key with
  | none => []
  | some e => e.listeners

/-- The trace of C2: the registry starts with key K holding 1; a component
instance (setter identity 7) mounts subscribed to K; it unmounts. -/
def c2w0 : World := ⟨initGS [] [("K", vNum 1)], 0⟩

def c2m : World × HookInst := mount c2w0 "K" vUndefined 7

def c2afterUnmount : World := unmount c2m.1 c2m.2

/-- C2, code evaluation at the failing input: after the mounted instance
unmounts, its listener array (identity 0) is still in K's listener Set —
the cleanup passed a freshly built array (identity 1) to Set.delete, which
therefore removed nothing — and the next write to K notifies the
supposedly removed handle, triggering the torn-down instance's setter.
The claim (and the source's own cleanup comment) says the handle is
removed and not notified. -/
theorem claim2_code_eval :
    listenersAt c2afterUnmount.gs "K" = [⟨0, 0, 7⟩] ∧
    (setGS c2afterUnmount.gs "K" (vNum 2)).2 = [⟨0, 0, 7⟩] := by
  constructor
  · rfl
  · rfl

/-- The trace of C3: the registry starts with keys K1 and K2; a component
instance (setter identity 7) mounts subscribed to K1; its key prop changes
to K2 and it re-renders. -/
def c3w0 : World := ⟨initGS [] [("K1", vNum 1), ("K2", vNum 2)], 0⟩

def c3m : World × HookInst := mount c3w0 "K1" vUndefined 7

def c3i2 : HookInst := ⟨"K2", (c3m.2).initialValue, (c3m.2).val, (c3m.2).isFirstRender, (c3m.2).cleanup⟩

def c3after : World × HookInst := rerender c3m.1 c3i2 7

/-- C3, code evaluation at the failing input: after the instance's key
changes from K1 to K2 and it re-renders, the old handle is still in K1's
listener Set (the cleanup's Set.delete received a fresh array and removed
nothing), no listener was added for K2 (the isFirstRender ref is already
false, so the effect re-run adds nothing), and a subsequent write to the
stale key K1 still notifies the handle.  The claim says the K1 handle is
removed and a new subscription is established for K2. -/
theorem claim3_code_eval :
    listenersAt c3after.1.gs "K1" = [⟨0, 0, 7⟩] ∧
    listenersAt c3after.1.gs "K2" = [] ∧
    (setGS c3after.1.gs "K1" (vNum 9)).2 = [⟨0, 0, 7⟩] := by
  refine ⟨rfl, rfl, rfl⟩

/-- Iterated re-renders of one live instance. -/
def doRerenders : Nat → World → HookInst → Nat → World × HookInst
  | 0, w, i, _ => (w, i)
  | Nat.succ n, w, i, iid =>
      let p := rerender w i iid
      doRerenders n p.1 p.2 iid

/-- Allocation soundness of a registry with respect to the fresh-identity
counter: every listener array stored anywhere in GS was allocated before
the counter's current value. -/
def wfGS (gs : GSState) (n : Nat) : Bool :=
  gs.all (fun ke => ke.2.listeners.all (fun l => decide (l.id < n)))

/-- Allocation soundness of a world. -/
def WF (w : World) : Prop := wfGS w.gs w.nextId = true

/-- The number of elements of a listener Set belonging to the component
instance with the given setter identity. -/
def countInst (s : List Listener) (iid : Nat) : Nat :=
  (s.filter (fun l => l.inst == iid)).length

/-- The total number of listener-Set elements, across all keys of GS,
belonging to the instance with the given setter identity. -/
def instCountGS (gs : GSState) (iid : Nat) : Nat :=
  (gs.map (fun ke => countInst ke.2.listeners iid)).sum

lemma wfGS_mono (gs : GSState) (n m : Nat) (h : wfGS gs n = true) (hnm : n ≤ m) :
    wfGS gs m = true := by
  simp only [wfGS, List.all_eq_true, decide_eq_true_eq] at *
  intro ke hke l hl
  exact lt_of_lt_of_le (h ke hke l hl) hnm

lemma wfGS_lookup (gs : GSState) (n : Nat) (k : String) (e : GSEntry) :
    wfGS gs n = true → lookupGS gs k = some e → ∀ l ∈ e.listeners, l.id < n := by
  induction gs with
  | nil => intro _ h; simp [lookupGS] at h
  | cons kv rest ih =>
      obtain ⟨k0, e0⟩ := kv
      intro hwf h
      simp only [wfGS, List.all_cons, Bool.and_eq_true] at hwf
      by_cases h0 : k0 = k
      · simp only [lookupGS, h0, if_true] at h
        cases h
        intro l hl
        have h1 := hwf.1
        simp only [List.all_eq_true, decide_eq_true_eq] at h1
        exact h1 l hl
      · simp only [lookupGS, h0, if_false] at h
        exact ih hwf.2 h

lemma all_lt_of_wf_entry (s : List Listener) (n : Nat)
    (h : ∀ l ∈ s, l.id < n) :
    s.all (fun l => decide (l.id < n)) = true := by
  simp only [List.all_eq_true, decide_eq_true_eq]
  exact h

lemma wfGS_setEntry (gs : GSState) (n : Nat) (k : String) (e : GSEntry)
    (hwf : wfGS gs n = true)
    (he : e.listeners.all (fun l => decide (l.id < n)) = true) :
    wfGS (setEntry gs k e) n = true := by
  induction gs with
  | nil => simp [setEntry, wfGS, he]
  | cons kv rest ih =>
      obtain ⟨k0, e0⟩ := kv
      simp only [wfGS, List.all_cons, Bool.and_eq_true] at hwf
      by_cases h0 : k0 = k
      · simp only [setEntry, h0, if_true]
        simp only [wfGS, List.all_cons, Bool.and_eq_true]
        exact ⟨he, hwf.2⟩
      · simp only [setEntry, h0, if_false]
        have hrest := ih hwf.2
        simp only [wfGS, List.all_cons, Bool.and_eq_true]
        exact ⟨hwf.1, hrest⟩

lemma setHas_false_of_lt (s : List Listener) (n : Nat) (h : ∀ l ∈ s, l.id < n) :
    setHas s n = false := by
  apply Bool.eq_false_iff.mpr
  intro hany
  obtain ⟨x, hx, hbeq⟩ := List.any_eq_true.mp hany
  have hid : x.id = n := by simpa using hbeq
  exact absurd (hid ▸ h x hx) (lt_irrefl n)

lemma setAdd_eq_append (s : List Listener) (n a b : Nat) (h : ∀ l ∈ s, l.id < n) :
    setAdd s ⟨n, a, b⟩ = s ++ [⟨n, a, b⟩] := by
  unfold setAdd
  rw [setHas_false_of_lt s n h]
  rfl

lemma setDelete_noop (s : List Listener) (n : Nat) (h : ∀ l ∈ s, l.id < n) :
    setDelete s n = s := by
  unfold setDelete
  induction s with
  | nil => rfl
  | cons x rest ih =>
      have hx : (!(x.id == n)) = true := by
        simp only [Bool.not_eq_true', beq_eq_false_iff_ne]
        exact Nat.ne_of_lt (h x (List.mem_cons_self x rest))
      rw [List.filter_cons, if_pos hx]
      rw [ih (fun l hl => h l (List.mem_cons_of_mem x hl))]

lemma updateListeners_setDelete_noop (gs : GSState) (n : Nat) (k : String)
    (hwf : wfGS gs n = true) :
    updateListeners gs k (fun s => setDelete s n) = gs := by
  induction gs with
  | nil => rfl
  | cons kv rest ih =>
      obtain ⟨k0, e0⟩ := kv
      simp only [wfGS, List.all_cons, Bool.and_eq_true] at hwf
      have h1 : ∀ l ∈ e0.listeners, l.id < n := by
        have h2 := hwf.1
        simp only [List.all_eq_true, decide_eq_true_eq] at h2
        exact h2
      by_cases h0 : k0 = k
      · simp [updateListeners, h0, setDelete_noop e0.listeners n h1, ih hwf.2]
      · simp [updateListeners, h0, ih hwf.2]

lemma lookupGS_updateListeners (gs : GSState) (k k' : String)
    (f : List Listener → List Listener) :
    lookupGS (updateListeners gs k f) k' =
      match lookupGS gs k' with
      | none => none
      | some e => some (if k' = k then ⟨e.value, f e.listeners⟩ else e) := by
  induction gs with
  | nil => simp [updateListeners, lookupGS]
  | cons kv rest ih =>
      obtain ⟨k0, e0⟩ := kv
      by_cases h0 : k0 = k
      · subst h0
        by_cases h1 : k0 = k'
        · subst h1
          simp [updateListeners, lookupGS]
        · simp [updateListeners, lookupGS, h1, ih]
      · by_cases h1 : k0 = k'
        · subst h1
          simp [updateListeners, lookupGS, h0]
        · simp [updateListeners, lookupGS, h0, h1, ih]

lemma wfGS_updateListeners_setAdd (gs : GSState) (n a b : Nat) (k : String)
    (hwf : wfGS gs n = true) :
    wfGS (updateListeners gs k (fun s => setAdd s ⟨n, a, b⟩)) (n + 1) = true := by
  induction gs with
  | nil => simp [updateListeners, wfGS]
  | cons kv rest ih =>
      obtain ⟨k0, e0⟩ := kv
      simp only [wfGS, List.all_cons, Bool.and_eq_true] at hwf
      have hup : ∀ l ∈ e0.listeners, l.id < n + 1 := by
        have h2 := hwf.1
        simp only [List.all_eq_true, decide_eq_true_eq] at h2
        exact fun l hl => Nat.lt_succ_of_lt (h2 l hl)
      have hlt : ∀ l ∈ e0.listeners, l.id < n := by
        have h2 := hwf.1
        simp only [List.all_eq_true, decide_eq_true_eq] at h2
        exact h2
      by_cases h0 : k0 = k
      · simp only [updateListeners, h0, if_true]
        simp only [wfGS, List.all_cons, Bool.and_eq_true]
        refine ⟨?_, ih hwf.2⟩
        rw [setAdd_eq_append e0.listeners n a b hlt, List.all_append]
        rw [all_lt_of_wf_entry _ _ hup]
        simp
      · simp only [updateListeners, h0, if_false]
        simp only [wfGS, List.all_cons, Bool.and_eq_true]
        exact ⟨all_lt_of_wf_entry _ _ hup, ih hwf.2⟩

lemma listenersAt_setEntry_shape (gs : GSState) (k : String) (v : JSValue) (k' : String) :
    listenersAt (setEntry gs k ⟨v, listenersAt gs k⟩) k' = listenersAt gs k' := by
  by_cases h0 : k' = k
  · subst h0
    simp [listenersAt, lookupGS_setEntry_self]
  · simp [listenersAt, lookupGS_setEntry_ne gs k k' _ h0]

lemma isSome_setEntry (gs : GSState) (k k' : String) (e : GSEntry)
    (h : (lookupGS gs k').isSome = true) :
    (lookupGS (setEntry gs k e) k').isSome = true := by
  by_cases h0 : k' = k
  · subst h0
    rw [lookupGS_setEntry_self]
    rfl
  · rw [lookupGS_setEntry_ne gs k k' e h0]
    exact h

lemma ensureEntry_listenersAt (gs : GSState) (key : String) (v : JSValue) (k : String) :
    listenersAt (ensureEntry gs key v) k = listenersAt gs k := by
  cases hl : lookupGS gs key with
  | none =>
      have h0 : listenersAt gs key = [] := by simp [listenersAt, hl]
      have h1 : ensureEntry gs key v = setEntry gs key ⟨v, listenersAt gs key⟩ := by
        simp [ensureEntry, hl, registerGS, h0]
      rw [h1, listenersAt_setEntry_shape]
  | some e => simp [ensureEntry, hl]

lemma ensureEntry_isSome (gs : GSState) (key : String) (v : JSValue) :
    (lookupGS (ensureEntry gs key v) key).isSome = true := by
  cases hl : lookupGS gs key with
  | none =>
      simp only [ensureEntry, hl, registerGS]
      rw [lookupGS_setEntry_self]
      rfl
  | some e => simp [ensureEntry, hl]

lemma ensureEntry_isSome_pres (gs : GSState) (key : String) (v : JSValue) (k : String)
    (h : (lookupGS gs k).isSome = true) :
    (lookupGS (ensureEntry gs key v) k).isSome = true := by
  cases hl : lookupGS gs key with
  | none =>
      simp only [ensureEntry, hl, registerGS]
      exact isSome_setEntry gs key k _ h
  | some e => simpa [ensureEntry, hl] using h

lemma ensureEntry_wf (gs : GSState) (key : String) (v : JSValue) (n : Nat)
    (hwf : wfGS gs n = true) :
    wfGS (ensureEntry gs key v) n = true := by
  cases hl : lookupGS gs key with
  | none =>
      simp only [ensureEntry, hl, registerGS]
      exact wfGS_setEntry gs n key ⟨v, []⟩ hwf rfl
  | some e => simpa [ensureEntry, hl] using hwf

lemma fillUndefined_listenersAt (gs : GSState) (key : String) (v : JSValue) (k : String) :
    listenersAt (fillUndefined gs key v) k = listenersAt gs k := by
  cases hl : lookupGS gs key with
  | none => simp [fillUndefined, hl]
  | some e =>
      by_cases hu : isUndefinedJS e.value
      · have h0 : listenersAt gs key = e.listeners := by simp [listenersAt, hl]
        have h1 : fillUndefined gs key v = setEntry gs key ⟨v, listenersAt gs key⟩ := by
          simp [fillUndefined, hl, hu, h0]
        rw [h1, listenersAt_setEntry_shape]
      · simp [fillUndefined, hl, hu]

lemma fillUndefined_isSome_pres (gs : GSState) (key : String) (v : JSValue) (k : String)
    (h : (lookupGS gs k).isSome = true) :
    (lookupGS (fillUndefined gs key v) k).isSome = true := by
  cases hl : lookupGS gs key with
  | none => simpa [fillUndefined, hl] using h
  | some e =>
      by_cases hu : isUndefinedJS e.value
      · simp only [fillUndefined, hl, hu, if_true]
        exact isSome_setEntry gs key k _ h
      · simpa [fillUndefined, hl, hu] using h

lemma fillUndefined_wf (gs : GSState) (key : String) (v : JSValue) (n : Nat)
    (hwf : wfGS gs n = true) :
    wfGS (fillUndefined gs key v) n = true := by
  cases hl : lookupGS gs key with
  | none => simpa [fillUndefined, hl] using hwf
  | some e =>
      by_cases hu : isUndefinedJS e.value
      · simp only [fillUndefined, hl, hu, if_true]
        have he : e.listeners.all (fun l => decide (l.id < n)) = true :=
          all_lt_of_wf_entry _ _ (wfGS_lookup gs n key e hwf hl)
        exact wfGS_setEntry gs n key ⟨v, e.listeners⟩ hwf he
      · simpa [fillUndefined, hl, hu] using hwf

lemma useGSRenderBody_nextId (w : World) (i : HookInst) :
    (useGSRenderBody w i).nextId = w.nextId := rfl

lemma useGSRenderBody_listenersAt (w : World) (i : HookInst) (k : String) :
    listenersAt (useGSRenderBody w i).gs k = listenersAt w.gs k := by
  show listenersAt (fillUndefined (ensureEntry w.gs i.key i.initialValue) i.key i.initialValue) k
    = listenersAt w.gs k
  rw [fillUndefined_listenersAt, ensureEntry_listenersAt]

lemma useGSRenderBody_isSome (w : World) (i : HookInst) :
    (lookupGS (useGSRenderBody w i).gs i.key).isSome = true := by
  exact fillUndefined_isSome_pres _ i.key i.initialValue i.key
    (ensureEntry_isSome w.gs i.key i.initialValue)

lemma useGSRenderBody_isSome_pres (w : World) (i : HookInst) (k : String)
    (h : (lookupGS w.gs k).isSome = true) :
    (lookupGS (useGSRenderBody w i).gs k).isSome = true := by
  exact fillUndefined_isSome_pres _ i.key i.initialValue k
    (ensureEntry_isSome_pres w.gs i.key i.initialValue k h)

lemma useGSRenderBody_WF (w : World) (i : HookInst) (hwf : WF w) :
    WF (useGSRenderBody w i) := by
  show wfGS (fillUndefined (ensureEntry w.gs i.key i.initialValue) i.key i.initialValue) w.nextId
    = true
  exact fillUndefined_wf _ i.key i.initialValue w.nextId
    (ensureEntry_wf w.gs i.key i.initialValue w.nextId hwf)

lemma useGSCleanup_props (w : World) (i : HookInst) (hwf : WF w) :
    (useGSCleanup w i).1.gs = w.gs ∧ WF (useGSCleanup w i).1 ∧
    (useGSCleanup w i).2.isFirstRender = i.isFirstRender := by
  cases hc : i.cleanup with
  | none =>
      refine ⟨?_, ?_, ?_⟩
      · simp [useGSCleanup, hc]
      · show wfGS (useGSCleanup w i).1.gs (useGSCleanup w i).1.nextId = true
        simp only [useGSCleanup, hc]
        exact hwf
      · simp [useGSCleanup, hc]
  | some t =>
      obtain ⟨k, a, b⟩ := t
      have hgs : updateListeners w.gs k (fun s => setDelete s w.nextId) = w.gs :=
        updateListeners_setDelete_noop w.gs w.nextId k hwf
      refine ⟨?_, ?_, ?_⟩
      · simp [useGSCleanup, hc, hgs]
      · show wfGS (useGSCleanup w i).1.gs (useGSCleanup w i).1.nextId = true
        simp only [useGSCleanup, hc]
        rw [hgs]
        exact wfGS_mono w.gs w.nextId (w.nextId + 1) hwf (Nat.le_succ _)
      · simp [useGSCleanup, hc]

lemma countInst_append (s t : List Listener) (iid : Nat) :
    countInst (s ++ t) iid = countInst s iid + countInst t iid := by
  simp [countInst, List.filter_append]

lemma countInst_lookup_zero (gs : GSState) (iid : Nat) (k : String) (e : GSEntry) :
    instCountGS gs iid = 0 → lookupGS gs k = some e → countInst e.listeners iid = 0 := by
  induction gs with
  | nil => intro _ h; simp [lookupGS] at h
  | cons kv rest ih =>
      obtain ⟨k0, e0⟩ := kv
      intro hz h
      simp only [instCountGS, List.map_cons, List.sum_cons] at hz
      have hz1 : countInst e0.listeners iid = 0 := Nat.eq_zero_of_add_eq_zero_right hz
      have hz2 : instCountGS rest iid = 0 := Nat.eq_zero_of_add_eq_zero_left hz
      by_cases h0 : k0 = k
      · simp only [lookupGS, h0, if_true] at h
        cases h
        exact hz1
      · simp only [lookupGS, h0, if_false] at h
        exact ih hz2 h

lemma countInst_listenersAt_zero (gs : GSState) (iid : Nat) (k : String)
    (hz : instCountGS gs iid = 0) :
    countInst (listenersAt gs k) iid = 0 := by
  cases hl : lookupGS gs k with
  | none => simp [listenersAt, hl, countInst]
  | some e =>
      simp only [listenersAt, hl]
      exact countInst_lookup_zero gs iid k e hz hl

lemma setGS_notified (gs : GSState) (k : String) (v : JSValue)
    (h : (lookupGS gs k).isSome = true) :
    (setGS gs k v).2 = listenersAt gs k := by
  cases hl : lookupGS gs k with
  | none => rw [hl] at h; simp at h
  | some e => simp [setGS, hl, listenersAt]

lemma useGSEffect_not_first (w : World) (i : HookInst) (iid : Nat)
    (hf : i.isFirstRender = false) :
    useGSEffect w i iid = (w, ⟨i.key, i.initialValue, i.val, false, none⟩) := by
  simp [useGSEffect, hf]

lemma rerender_inv (w : World) (i : HookInst) (iid : Nat) (key : String)
    (hwf : WF w) (hf : i.isFirstRender = false)
    (hsome : (lookupGS w.gs key).isSome = true)
    (hcount : countInst (listenersAt w.gs key) iid = 1) :
    WF (rerender w i iid).1 ∧
    (rerender w i iid).2.isFirstRender = false ∧
    (lookupGS (rerender w i iid).1.gs key).isSome = true ∧
    countInst (listenersAt (rerender w i iid).1.gs key) iid = 1 := by
  have hre : rerender w i iid
      = useGSEffect (useGSCleanup (useGSRenderBody w i) i).1
          (useGSCleanup (useGSRenderBody w i) i).2 iid := rfl
  have hb1 : WF (useGSRenderBody w i) := useGSRenderBody_WF w i hwf
  have hb2 : (lookupGS (useGSRenderBody w i).gs key).isSome = true :=
    useGSRenderBody_isSome_pres w i key hsome
  obtain ⟨hc1, hc2, hc3⟩ := useGSCleanup_props (useGSRenderBody w i) i hb1
  have hf2 : (useGSCleanup (useGSRenderBody w i) i).2.isFirstRender = false := by
    rw [hc3, hf]
  rw [hre, useGSEffect_not_first _ _ iid hf2]
  refine ⟨hc2, rfl, ?_, ?_⟩
  · show (lookupGS (useGSCleanup (useGSRenderBody w i) i).1.gs key).isSome = true
    rw [hc1]
    exact hb2
  · show countInst (listenersAt (useGSCleanup (useGSRenderBody w i) i).1.gs key) iid = 1
    rw [hc1, useGSRenderBody_listenersAt]
    exact hcount

lemma doRerenders_inv (n : Nat) (w : World) (i : HookInst) (iid : Nat) (key : String)
    (hwf : WF w) (hf : i.isFirstRender = false)
    (hsome : (lookupGS w.gs key).isSome = true)
    (hcount : countInst (listenersAt w.gs key) iid = 1) :
    WF (doRerenders n w i iid).1 ∧
    (lookupGS (doRerenders n w i iid).1.gs key).isSome = true ∧
    countInst (listenersAt (doRerenders n w i iid).1.gs key) iid = 1 := by
  induction n generalizing w i with
  | zero => exact ⟨hwf, hsome, hcount⟩
  | succ m ih =>
      obtain ⟨h1, h2, h3, h4⟩ := rerender_inv w i iid key hwf hf hsome hcount
      have hstep : doRerenders (Nat.succ m) w i iid
          = doRerenders m (rerender w i iid).1 (rerender w i iid).2 iid := rfl
      rw [hstep]
      exact ih (rerender w i iid).1 (rerender w i iid).2 h1 h2 h3 h4

lemma mount_inv (w : World) (key : String) (initV : JSValue) (iid : Nat)
    (hwf : WF w) (hfresh : instCountGS w.gs iid = 0) :
    WF (mount w key initV iid).1 ∧
    (mount w key initV iid).2.isFirstRender = false ∧
    (lookupGS (mount w key initV iid).1.gs key).isSome = true ∧
    countInst (listenersAt (mount w key initV iid).1.gs key) iid = 1 := by
  have hw1wf : WF (useGSRenderBody w (initialInst key initV)) :=
    useGSRenderBody_WF w _ hwf
  have hsome1 : (lookupGS (useGSRenderBody w (initialInst key initV)).gs key).isSome = true :=
    useGSRenderBody_isSome w (initialInst key initV)
  obtain ⟨e, he⟩ := Option.isSome_iff_exists.mp hsome1
  have hlt : ∀ l ∈ e.listeners, l.id < (useGSRenderBody w (initialInst key initV)).nextId :=
    wfGS_lookup _ _ key e hw1wf he
  have hgs1 : (mount w key initV iid).1.gs
      = updateListeners (useGSRenderBody w (initialInst key initV)).gs key
          (fun s => setAdd s ⟨(useGSRenderBody w (initialInst key initV)).nextId, 0, iid⟩) := rfl
  have hnext1 : (mount w key initV iid).1.nextId
      = (useGSRenderBody w (initialInst key initV)).nextId + 1 := rfl
  have hlook : lookupGS (mount w key initV iid).1.gs key
      = some ⟨e.value, setAdd e.listeners
          ⟨(useGSRenderBody w (initialInst key initV)).nextId, 0, iid⟩⟩ := by
    rw [hgs1, lookupGS_updateListeners, he]
    simp
  refine ⟨?_, rfl, ?_, ?_⟩
  · show wfGS (mount w key initV iid).1.gs (mount w key initV iid).1.nextId = true
    rw [hgs1, hnext1]
    exact wfGS_updateListeners_setAdd _ _ 0 iid key hw1wf
  · rw [hlook]
    rfl
  · have hlat : listenersAt (mount w key initV iid).1.gs key
        = setAdd e.listeners ⟨(useGSRenderBody w (initialInst key initV)).nextId, 0, iid⟩ := by
      simp [listenersAt, hlook]
    rw [hlat, setAdd_eq_append _ _ _ _ hlt, countInst_append]
    have hz : countInst e.listeners iid = 0 := by
      have h1 : e.listeners
          = listenersAt (useGSRenderBody w (initialInst key initV)).gs key := by
        simp [listenersAt, he]
      rw [h1, useGSRenderBody_listenersAt]
      exact countInst_listenersAt_zero w.gs iid key hfresh
    rw [hz]
    simp [countInst]

/-- C9: in any allocation-sound world in which the component instance with
setter identity iid has no listener registered anywhere, after that
instance mounts subscribed to key K and then re-renders any number of
times with the same key, K's listener set holds exactly one handle of the
instance (the mount effect added it once; every later effect run sees the
isFirstRender ref cleared and adds nothing), and a single write to K
notifies a handle of that still-active instance exactly once. -/
theorem claim9_subscribe_once (w : World) (key : String) (initV v : JSValue) (iid n : Nat)
    (hwf : WF w) (hfresh : instCountGS w.gs iid = 0) :
    countInst (listenersAt
      (doRerenders n (mount w key initV iid).1 (mount w key initV iid).2 iid).1.gs key) iid = 1 ∧
    countInst (setGS
      (doRerenders n (mount w key initV iid).1 (mount w key initV iid).2 iid).1.gs key v).2 iid
      = 1 := by
  obtain ⟨h1, h2, h3, h4⟩ := mount_inv w key initV iid hwf hfresh
  obtain ⟨g1, g2, g3⟩ :=
    doRerenders_inv n (mount w key initV iid).1 (mount w key initV iid).2 iid key h1 h2 h3 h4
  refine ⟨g3, ?_⟩
  rw [setGS_notified _ _ _ g2]
  exact g3

theorem claim9_witness :
    WF ⟨[], 0⟩ ∧ instCountGS ([] : GSState) 3 = 0 ∧
    countInst (listenersAt
      (doRerenders 2 (mount ⟨[], 0⟩ "K" (vNum 1) 3).1 (mount ⟨[], 0⟩ "K" (vNum 1) 3).2 3).1.gs
      "K") 3 = 1 ∧
    countInst (setGS
      (doRerenders 2 (mount ⟨[], 0⟩ "K" (vNum 1) 3).1 (mount ⟨[], 0⟩ "K" (vNum 1) 3).2 3).1.gs
      "K" (vNum 2)).2 3 = 1 :=
  ⟨rfl, rfl,
    (claim9_subscribe_once ⟨[], 0⟩ "K" (vNum 1) (vNum 2) 3 2 rfl rfl).1,
    (claim9_subscribe_once ⟨[], 0⟩ "K" (vNum 1) (vNum 2) 3 2 rfl rfl).2⟩
